import Mathlib

/-!
# Verification of the benchmark-gke-pipeline measurement and pipeline code

Shallow embedding of the Python sources:
* `src/measurement.py`  — `ServerInferenceMetric`, `ThreadedStatWriter.run`,
  `ServerStatsMonitor._get_values`, `ClientStatsMonitor._get_values`
* `src/frame_reader.py` — `GCPFrameDataGenerator.__next__`, `.stop`, `.__iter__`
* `src/client_utils.py` — `Pipeline.get`, `Pipeline.cleanup`, `Pipeline.reset`

Machine floats of the Python code are embedded as exact rationals (`ℚ`);
Python exceptions are embedded as `Except` values.
-/

namespace BenchmarkGKE

/-- Python exceptions that the embedded code can raise. -/
inductive PyErr where
  | attributeError
  | valueError
  | indexError
  | zeroDivisionError
  | timeoutError
  deriving DecidableEq, Repr

/-! ## `src/measurement.py` — `ServerInferenceMetric` -/

/-- State of `ServerInferenceMetric`: the fields set in `__init__`
(`self.ns = 0`, `self.count = 0`). -/
structure ServerInferenceMetric where
  ns : ℚ
  count : ℚ
  deriving DecidableEq, Repr

/-- `ServerInferenceMetric.__init__`. -/
def ServerInferenceMetric.init : ServerInferenceMetric := ⟨0, 0⟩

/-- `ServerInferenceMetric.update(count, ns)` (src/measurement.py:20-28).
Returns the Python return value (`None`, or the pair `(average, update)`)
together with the post-call object state. -/
def ServerInferenceMetric.update (m : ServerInferenceMetric) (count ns : ℚ) :
    Option (ℚ × ℚ) × ServerInferenceMetric :=
  let upd := count - m.count
  if upd = 0 then (none, m)
  else (some ((ns - m.ns) / upd, upd), { ns := ns, count := count })

/-- Feed a sequence of absolute `(count, ns)` counter snapshots to a metric
in order, collecting each call's return value. -/
def feedSnapshots (m : ServerInferenceMetric) : List (ℚ × ℚ) → List (Option (ℚ × ℚ))
  | [] => []
  | (c, t) :: rest =>
      let r := m.update c t
      r.1 :: feedSnapshots r.2 rest

/-! ## `src/measurement.py` — `ClientStatsMonitor` -/

/-- One item read from a client's metric queue: either the distinguished
`("start_time", t0)` tuple or an ordinary tuple of timestamps. -/
inductive ClientMsg where
  | startTime (t0 : ℚ)
  | tuple (ms : List ℚ)
  deriving DecidableEq, Repr

/-- Mutable state of `ClientStatsMonitor` relevant to `_get_values`:
`self.start_time` (an attribute that does not exist until first assigned,
hence `Option`), `self.n`, `self._latency`, and the three accessor queues. -/
structure ClientStatsMonitor where
  startTime : Option ℚ
  n : ℕ
  latency : ℚ
  throughputQ : List ℚ
  requestRateQ : List ℚ
  latencyQ : List ℚ
  deriving DecidableEq, Repr

/-- `ClientStatsMonitor.__init__` state (`self.n = 0`, `self._latency = 0`,
empty queues, `self.start_time` unset). -/
def ClientStatsMonitor.init : ClientStatsMonitor := ⟨none, 0, 0, [], [], []⟩

/-- A row appended to `values`: `[client_id] + measurements`. -/
abbrev ClientRow := String × List ℚ

/-- The loop body of `ClientStatsMonitor._get_values`
(src/measurement.py:242-267).  `polls` is the snapshot of
`self.qs.items()` for this call: for each client id, the result of
`q.get_nowait()` (`none` = `Empty`).  `lastMs` models the Python loop
variable `measurements`, which survives the loop and is used for the
throughput / request-rate computations after it.  Raised exceptions:
`AttributeError` when `self.start_time` is read before any
`("start_time", t0)` tuple arrived, `IndexError` on an empty tuple,
`ZeroDivisionError` when a post-loop division hits a zero timestamp. -/
def clientGetValuesAux (st : ClientStatsMonitor) (lastMs : Option (List ℚ))
    (acc : List ClientRow) :
    List (String × Option ClientMsg) →
    Except PyErr (ClientStatsMonitor × Option (List ClientRow))
  | [] =>
      if acc = [] then .ok (st, none)
      else
        match lastMs with
        | none => .error .indexError
        | some ms =>
            match ms.getLast?, ms[1]? with
            | some lastT, some secondT =>
                if lastT = 0 ∨ secondT = 0 then .error .zeroDivisionError
                else
                  .ok ({ st with
                          throughputQ := st.throughputQ ++ [(st.n : ℚ) / lastT],
                          requestRateQ := st.requestRateQ ++ [(st.n : ℚ) / secondT],
                          latencyQ := st.latencyQ ++ [st.latency] },
                       some acc)
            | _, _ => .error .indexError
  | (_, none) :: rest => clientGetValuesAux st lastMs acc rest
  | (_, some (.startTime t0)) :: _ =>
      .ok ({ st with startTime := some t0 }, none)
  | (cid, some (.tuple ms)) :: rest =>
      match st.startTime with
      | none => .error .attributeError
      | some t0 =>
          let shifted := ms.map (· - t0)
          match shifted.getLast?, shifted.head? with
          | some lastT, some firstT =>
              let n' : ℕ := st.n + 1
              let latency := lastT - firstT
              let st' := { st with
                            n := n',
                            latency := st.latency + (latency - st.latency) / (n' : ℚ) }
              clientGetValuesAux st' (some shifted) (acc ++ [(cid, shifted)]) rest
          | _, _ => .error .indexError

/-- `ClientStatsMonitor._get_values` on one poll of all client queues. -/
def clientGetValues (st : ClientStatsMonitor)
    (polls : List (String × Option ClientMsg)) :
    Except PyErr (ClientStatsMonitor × Option (List ClientRow)) :=
  clientGetValuesAux st none [] polls

/-- Iterate `_get_values` over successive polls, keeping the final state. -/
def clientFeed (st : ClientStatsMonitor) :
    List (List (String × Option ClientMsg)) → Except PyErr ClientStatsMonitor
  | [] => .ok st
  | poll :: rest =>
      match clientGetValues st poll with
      | .error e => .error e
      | .ok (st', _) => clientFeed st' rest

/-- Iterate `_get_values` over successive polls, returning the final state
together with the rows produced by the LAST poll. -/
def clientFeedLast (st : ClientStatsMonitor) :
    List (List (String × Option ClientMsg)) →
    Except PyErr (ClientStatsMonitor × Option (List ClientRow))
  | [] => .ok (st, none)
  | [poll] => clientGetValues st poll
  | poll :: rest =>
      match clientGetValues st poll with
      | .error e => .error e
      | .ok (st', _) => clientFeedLast st' rest

/-! ## `src/measurement.py` — `ServerStatsMonitor` and `ThreadedStatWriter.run`

The HTTP fetch of the Prometheus metrics page and its text parsing
(`requests.get`, `_filter_rows_by_*`, `_get_row_value`) are abstracted
into the poll input: a `PollInput` carries, per model, the already summed
success count and per-process duration sums, plus the already computed
`gpu_util` and wall-clock `interval`.  Everything from the
`self.stats[model][process].update(count, us)` call on is embedded
faithfully. -/

/-- A cell of an output row: the Python rows mix numbers and the model
name string. -/
inductive Val where
  | q (x : ℚ)
  | s (x : String)
  deriving DecidableEq, Repr

abbrev Row := List Val

/-- An item on the writer's `_error_q`: `ServerStatsMonitor._get_values`
puts the raw breaching average (a float) on it, while
`ThreadedStatWriter.run` puts caught exceptions. -/
inductive ErrItem where
  | val (t : ℚ)
  | exc (e : PyErr)
  deriving DecidableEq, Repr

/-- Exceptions escaping `ServerStatsMonitor._get_values`. -/
inductive SrvRaise where
  | unstable
  | py (e : PyErr)
  deriving DecidableEq, Repr

/-- The `processes` list of `ServerStatsMonitor.__init__`
(= `self.columns[:5]`). -/
def processes : List String :=
  ["success", "queue", "compute_input", "compute_infer", "compute_output"]

/-- Per-model data extracted from the metrics page for one poll: the summed
`nv_inference_request_success` count and, per process name, the summed
duration in microseconds. -/
structure ModelSnapshot where
  count : ℚ
  us : String → ℚ

/-- One poll's input: extracted gpu utilization, elapsed interval, and the
page content per model (`none` = the model's rows are absent, which makes
`_get_values` raise `ValueError`). -/
structure PollInput where
  gpuUtil : ℚ
  interval : ℚ
  snap : String → Option ModelSnapshot

/-- Outcome of the inner `for process in self.columns[:5]` loop for one
model. -/
inductive ProcOutcome where
  | skip                                -- some `update` returned `None`: `return`
  | unstable (t : ℚ)                    -- `UnstableQueueException` raised
  | done (vals : List ℚ) (diff : ℚ)     -- loop finished; `diff` is the last loop value

/-- The `for process in self.columns[:5]` loop of
`ServerStatsMonitor._get_values` (src/measurement.py:188-208), threading
the `self.stats` table and the `_error_q` puts.  `lastDiff` models the
Python loop variable `diff`. -/
def srvProcessLoop (stats : String → String → ServerInferenceMetric)
    (monitor : List String) (limit : ℚ) (model : String) (count : ℚ)
    (us : String → ℚ) (acc : List ℚ) (lastDiff : Option ℚ) :
    List String →
    (String → String → ServerInferenceMetric) × List ErrItem × ProcOutcome
  | [] =>
      match lastDiff with
      | some d => (stats, [], .done acc d)
      | none => (stats, [], .skip)   -- unreachable for the fixed 5-process list
  | p :: rest =>
      let r := (stats model p).update count (us p)
      let stats' := fun m' p' => if m' = model ∧ p' = p then r.2 else stats m' p'
      match r.1 with
      | none => (stats', [], .skip)
      | some (t, diff) =>
          if model ∈ monitor ∧ p = "queue" ∧ t > limit then
            (stats', [.val t], .unstable t)
          else
            srvProcessLoop stats' monitor limit model count us (acc ++ [t])
              (some diff) rest

/-- The `for model in self.models` loop of `ServerStatsMonitor._get_values`
(src/measurement.py:172-213).  Returns the updated stats table, the
`_error_q` puts made during the call, and either a raised exception or the
Python return value (`none` = the bare `return` taken when some
`update` yields `None`). -/
def srvModelLoop (stats : String → String → ServerInferenceMetric)
    (monitor : List String) (limit : ℚ) (inp : PollInput) (acc : List Row) :
    List String →
    (String → String → ServerInferenceMetric) × List ErrItem
      × Except SrvRaise (Option (List Row))
  | [] => (stats, [], .ok (some acc))
  | model :: rest =>
      match inp.snap model with
      | none => (stats, [], .error (.py .valueError))
      | some sn =>
          match srvProcessLoop stats monitor limit model sn.count sn.us [] none
              processes with
          | (stats', errs, .skip) => (stats', errs, .ok none)
          | (stats', errs, .unstable _) => (stats', errs, .error .unstable)
          | (stats', errs, .done vals d) =>
              let row := vals.map Val.q ++
                [Val.q inp.gpuUtil, Val.s model, Val.q d, Val.q inp.interval]
              let r := srvModelLoop stats' monitor limit inp (acc ++ [row]) rest
              (r.1, errs ++ r.2.1, r.2.2)

/-- Full mutable state of a `ServerStatsMonitor` thread: the `self.stats`
defaultdict (a total function, defaulting to `ServerInferenceMetric()`),
the construction parameters, the writer's `_error_q` and `_stop_event`,
and the data rows written to the output file. -/
structure SrvState where
  stats : String → String → ServerInferenceMetric
  models : List String
  monitor : List String
  limit : ℚ
  errorQ : List ErrItem
  stopped : Bool
  rows : List Row

/-- `ServerStatsMonitor._get_values` on one poll. -/
def srvGetValues (st : SrvState) (inp : PollInput) :
    SrvState × Except SrvRaise (Option (List Row)) :=
  let r := srvModelLoop st.stats st.monitor st.limit inp [] st.models
  ({ st with stats := r.1, errorQ := st.errorQ ++ r.2.1 }, r.2.2)

/-- `ThreadedStatWriter.write_row` for a list of rows: each row must have
as many cells as `self.columns` (9 columns for the server monitor),
otherwise `ValueError` (src/measurement.py:63-72). -/
def srvWriteRows (st : SrvState) : List Row → SrvState
  | [] => st
  | r :: rest =>
      if r.length = 9 then srvWriteRows { st with rows := st.rows ++ [r] } rest
      else { st with stopped := true, errorQ := st.errorQ ++ [.exc .valueError] }

/-- One iteration of the `while not self.stopped` loop of
`ThreadedStatWriter.run` (src/measurement.py:74-89):
`UnstableQueueException` stops the thread and puts nothing on `_error_q`;
any other exception stops the thread and puts the exception. -/
def srvRunStep (st : SrvState) (inp : PollInput) : SrvState :=
  if st.stopped then st
  else
    let r := srvGetValues st inp
    match r.2 with
    | .ok none => r.1
    | .ok (some rows) =>
        match rows with
        | [] =>   -- `values[0]` on an empty list: IndexError, caught by `run`
            { r.1 with stopped := true, errorQ := r.1.errorQ ++ [.exc .indexError] }
        | _ => srvWriteRows r.1 rows
    | .error .unstable => { r.1 with stopped := true }
    | .error (.py e) =>
        { r.1 with stopped := true, errorQ := r.1.errorQ ++ [.exc e] }

/-- `ThreadedStatWriter.run` over a finite schedule of polls. -/
def srvRun (st : SrvState) (polls : List PollInput) : SrvState :=
  polls.foldl srvRunStep st

/-- The `ThreadedStatWriter.error` non-blocking accessor: the first item
of `_error_q`, or `none` when the queue is `Empty`
(src/measurement.py:56-61). -/
def SrvState.error (st : SrvState) : Option ErrItem := st.errorQ.head?

/-! ## `src/frame_reader.py` — `GCPFrameDataGenerator`

A frame is a 2-D array, channels × samples, embedded as a list of rows.
The pacing sleeps and the `Package` timestamping are timing-only and are
omitted; `__next__` returns the sliced array `x`. -/

abbrev Frame := List (List Int)

/-- `numpy`'s `shape[1]` for a 2-D array with uniform row lengths. -/
def shape1 (f : Frame) : ℕ := (f.head?.getD []).length

/-- `np.concatenate([a, b], axis=1)`: rows concatenated pairwise. -/
def hconcat (a b : Frame) : Frame := List.zipWith (· ++ ·) a b

/-- `self._frame[:, k:]` — every row from sample `k` on. -/
def colsFrom (f : Frame) (k : ℕ) : Frame := f.map (List.drop k)

/-- `self._frame[a:b]` — the axis-0 (row) slice the code takes at
src/frame_reader.py:155. -/
def rowSlice (f : Frame) (a b : ℕ) : Frame := (f.drop a).take (b - a)

/-- An item on the fetch queue: a frame, or an `ExceptionWrapper` put by
the fetch process (re-raised by `__next__`). -/
abbrev QItem := Except PyErr Frame

/-- Failure modes of `__next__`: `StopIteration` (queue empty and fetch
process dead), `blocked` (queue empty but the fetch process alive — the
code spins in its `while True` loop, which never terminates against a
static queue), or a Python exception. -/
inductive NextErr where
  | stopIter
  | blocked
  | py (e : PyErr)
  deriving DecidableEq, Repr

/-- Iteration state of `GCPFrameDataGenerator`: `self._frame`,
`self._idx`, `self._step`, plus the fetch queue contents and the
liveness of the fetch process. -/
structure GCPFrameDataGenerator where
  frame : Option Frame
  idx : ℕ
  step : ℕ
  queue : List QItem
  readerAlive : Bool
  deriving Repr

/-- `GCPFrameDataGenerator.__next__` (src/frame_reader.py:127-158).
Note that when `self._frame is None` triggers the fetch branch, line 144
still evaluates `self._frame.shape[1]` on `None`, an `AttributeError`. -/
def GCPFrameDataGenerator.next (g0 : GCPFrameDataGenerator) :
    Except NextErr (Frame × GCPFrameDataGenerator) :=
  let g := { g0 with idx := g0.idx + 1 }
  let needsFetch :=
    match g.frame with
    | none => true
    | some f => (g.idx + 1) * g.step > shape1 f
  if needsFetch then
    match g.queue with
    | [] => if g.readerAlive then .error .blocked else .error .stopIter
    | item :: rest =>
        match item with
        | .error e => .error (.py e)            -- `frame.reraise()`
        | .ok newFrame =>
            match g.frame with
            | none => .error (.py .attributeError)  -- `None.shape[1]` at line 144
            | some f =>
                let merged :=
                  if g.idx * g.step < shape1 f then
                    hconcat (colsFrom f (g.idx * g.step)) newFrame
                  else newFrame
                let g' := { g with frame := some merged, idx := 0, queue := rest }
                .ok (rowSlice merged (g'.idx * g'.step) ((g'.idx + 1) * g'.step), g')
  else
    match g.frame with
    | none => .error (.py .attributeError)      -- unreachable: needsFetch covers none
    | some f => .ok (rowSlice f (g.idx * g.step) ((g.idx + 1) * g.step), g)

/-- A fresh generator as left by `__init__` with `kernel_stride * sample_rate
= step`, together with the fetch-side state the claims quantify over. -/
def GCPFrameDataGenerator.fresh (step : ℕ) (queue : List QItem)
    (alive : Bool) : GCPFrameDataGenerator :=
  { frame := none, idx := 0, step := step, queue := queue, readerAlive := alive }

/-- Lifecycle state of the generator's fetch process for `stop()`:
`started` records whether `__iter__` ran (it is `__iter__`, not
`__init__`, that creates `self._stop_event` and `self._frame_reader`). -/
structure FrameGenProc where
  started : Bool
  stopSet : Bool
  running : Bool
  exitsOnSignal : Bool
  closed : Bool
  terminated : Bool
  deriving DecidableEq, Repr

/-- `GCPFrameDataGenerator.stop` (src/frame_reader.py:160-166).
`self._stop_event.set()` raises `AttributeError` when `__iter__` never
ran; `join(0.5)` raises `ValueError` on an already-closed process object;
`close()` raises `ValueError` while the process is still running, in
which case the `except` branch calls `terminate()`. -/
def FrameGenProc.stop (g : FrameGenProc) : Except PyErr FrameGenProc :=
  if !g.started then .error .attributeError
  else
    let g := { g with stopSet := true }
    if g.closed then .error .valueError
    else
      let g := { g with running := g.running && !g.exitsOnSignal }
      if g.running then .ok { g with terminated := true, running := false }
      else .ok { g with closed := true }

/-! ## `src/client_utils.py` — `Pipeline` -/

/-- State of one managed producer process as `Pipeline.cleanup` sees it:
`preClosed` means the process object was already closed, so `is_alive()`
raises `ValueError`; `exitsOnStop` says whether the process exits within
the `join(0.5)` window once stopped. -/
structure ManagedProcess where
  preClosed : Bool
  alive : Bool
  exitsOnStop : Bool
  stopCalled : Bool
  joinCalled : Bool
  closeDone : Bool
  termCalled : Bool
  deriving DecidableEq, Repr

/-- The `Pipeline.cleanup` loop body for one process
(src/client_utils.py:31-47): skip entirely if `is_alive()` raises
`ValueError`; stop and join if alive; then `close()`, falling back to
`terminate()` + `close()` when `close()` raises `ValueError` because the
process is still running. -/
def cleanupOne (p : ManagedProcess) : ManagedProcess :=
  if p.preClosed then p
  else
    let p :=
      if p.alive then
        { p with stopCalled := true, joinCalled := true,
                 alive := p.alive && !p.exitsOnStop }
      else p
    if p.alive then
      { p with termCalled := true, alive := false, closeDone := true }
    else { p with closeDone := true }

/-- `Pipeline.cleanup` (src/client_utils.py:31-47). -/
def Pipeline.cleanup (ps : List ManagedProcess) : List ManagedProcess :=
  ps.map cleanupOne

/-- Modelled from the spec: `sync_recv` lives in the external `stillwater`
package, not in this repository.  Per the spec it "returns one aggregated
item only once all channels in the target set have each produced a ready
item, or fails with `TimeoutError` if the deadline elapses first".  Each
channel is given with the item it produced before the deadline (`none` =
nothing ready in time). -/
def sync_recv {α : Type} (channels : List (String × Option α)) :
    Except PyErr (List (String × α)) :=
  if channels.all (fun c => c.2.isSome) then
    .ok (channels.filterMap fun c => c.2.map (c.1, ·))
  else .error .timeoutError

/-- `Pipeline.get` (src/client_utils.py:49-55) with the result of the
`sync_recv` call abstracted as `recv`: on any exception, `self.cleanup()`
runs and the exception is re-raised. -/
def Pipeline.getWith {α : Type} (recv : Except PyErr α)
    (ps : List ManagedProcess) : Except PyErr α × List ManagedProcess :=
  match recv with
  | .ok pkg => (.ok pkg, ps)
  | .error e => (.error e, Pipeline.cleanup ps)

/-- `Pipeline.get(timeout)` (src/client_utils.py:49-55) against the
spec-modelled `sync_recv`. -/
def Pipeline.get {α : Type} (channels : List (String × Option α))
    (ps : List ManagedProcess) :
    Except PyErr (List (String × α)) × List ManagedProcess :=
  Pipeline.getWith (sync_recv channels) ps

/-- Observable events of `Pipeline.reset` in program order. -/
inductive ResetEv where
  | pause (p : String)
  | drainOutPipes
  | resetSent (p : String)
  | resetAck (p : String)
  | drainMetricQ (p : String)
  | resume (p : String)
  deriving DecidableEq, Repr

/-- The per-process body of the third loop of `Pipeline.reset`
(src/client_utils.py:71-96): send the reset control message, wait for its
acknowledgment (`_in_q.join()`; for `LowLatencyFrameGenerator`s the `t0`
reply read is part of the same handshake), drain the metric queue, then
resume that process. -/
def perProcessReset (p : String) : List ResetEv :=
  [.resetSent p, .resetAck p, .drainMetricQ p, .resume p]

/-- The third phase of `Pipeline.reset`: the single `for process in
self.processes` loop that resets AND resumes each process in turn. -/
def resetPhase : List String → List ResetEv
  | [] => []
  | p :: rest => perProcessReset p ++ resetPhase rest

/-- The event trace of `Pipeline.reset` (src/client_utils.py:57-96):
pause every process, drain the out pipes, then the combined
reset/resume loop. -/
def resetTrace (ps : List String) : List ResetEv :=
  ps.map .pause ++ [.drainOutPipes] ++ resetPhase ps

/-! ### Concrete poll inputs used in the theorems -/

/-- The fresh `self.stats` defaultdict: every `(model, process)` cell is a
default-constructed `ServerInferenceMetric`. -/
def freshStats : String → String → ServerInferenceMetric := fun _ _ => .init

/-- Per-process duration sums for the breach scenario: 100 µs of queue
time, 50 µs of request time, on 10 successes. -/
def breachUs : String → ℚ :=
  fun p => if p = "queue" then 100 else if p = "success" then 50 else 0

/-- A poll whose queue average (100/10 = 10) exceeds the limit 5. -/
def breachPoll : PollInput :=
  { gpuUtil := 0, interval := 1,
    snap := fun m => if m = "m" then some ⟨10, breachUs⟩ else none }

/-- A monitor watching model `"m"`'s queue stage with limit 5. -/
def breachState : SrvState :=
  { stats := freshStats, models := ["m"], monitor := ["m"], limit := 5,
    errorQ := [], stopped := false, rows := [] }

/-- A poll over two models where `"a"` gained 5 successes but `"b"`'s
success count is unchanged at 0. -/
def pollAB : PollInput :=
  { gpuUtil := 0, interval := 1,
    snap := fun m =>
      if m = "a" then some ⟨5, fun _ => 10⟩
      else if m = "b" then some ⟨0, fun _ => 0⟩
      else none }

/-- An unmonitored two-model server monitor. -/
def stateAB : SrvState :=
  { stats := freshStats, models := ["a", "b"], monitor := [], limit := 0,
    errorQ := [], stopped := false, rows := [] }

/-- The stats table after model `"a"`'s five process updates in the
two-model poll. -/
def abStats : String → String → ServerInferenceMetric := fun m' p' =>
  if m' = "a" ∧ p' = "compute_output" then ⟨10, 5⟩
  else if m' = "a" ∧ p' = "compute_infer" then ⟨10, 5⟩
  else if m' = "a" ∧ p' = "compute_input" then ⟨10, 5⟩
  else if m' = "a" ∧ p' = "queue" then ⟨10, 5⟩
  else if m' = "a" ∧ p' = "success" then ⟨10, 5⟩
  else freshStats m' p'

/-- Two producers `"A"`, `"B"`: `"A"` declares origin 0, then `"B"`
declares origin 100, then `"A"` sends the tuple `(0, 10)`. -/
def c8polls : List (List (String × Option ClientMsg)) :=
  [[("A", some (.startTime 0)), ("B", none)],
   [("A", none), ("B", some (.startTime 100))],
   [("A", some (.tuple [0, 10])), ("B", none)]]

/-! ## Theorems -/

/-! ### Unfolding lemmas for the `ServerStatsMonitor` loops -/

/-- One step of the per-process loop when `update` returns `None`:
the bare `return` is taken. -/
theorem srvProcessLoop_step_none
    (stats : String → String → ServerInferenceMetric) (monitor : List String)
    (limit : ℚ) (model : String) (count : ℚ) (us : String → ℚ) (acc : List ℚ)
    (lastDiff : Option ℚ) (p : String) (rest : List String)
    (m2 : ServerInferenceMetric)
    (hu : (stats model p).update count (us p) = (none, m2)) :
    srvProcessLoop stats monitor limit model count us acc lastDiff (p :: rest) =
      ((fun m' p' => if m' = model ∧ p' = p then m2 else stats m' p'), [],
        .skip) := by
  simp only [srvProcessLoop, hu]

/-- One step of the per-process loop when the circuit-breaker condition
holds: the average is put on `_error_q` and `UnstableQueueException` is
raised. -/
theorem srvProcessLoop_step_breach
    (stats : String → String → ServerInferenceMetric) (monitor : List String)
    (limit : ℚ) (model : String) (count : ℚ) (us : String → ℚ) (acc : List ℚ)
    (lastDiff : Option ℚ) (p : String) (rest : List String) (t d : ℚ)
    (m2 : ServerInferenceMetric)
    (hu : (stats model p).update count (us p) = (some (t, d), m2))
    (hc : model ∈ monitor ∧ p = "queue" ∧ t > limit) :
    srvProcessLoop stats monitor limit model count us acc lastDiff (p :: rest) =
      ((fun m' p' => if m' = model ∧ p' = p then m2 else stats m' p'),
        [.val t], .unstable t) := by
  simp only [srvProcessLoop, hu]
  simp [hc]

/-- One step of the per-process loop when `update` produced a value and no
breach fires: the loop continues. -/
theorem srvProcessLoop_step_go
    (stats : String → String → ServerInferenceMetric) (monitor : List String)
    (limit : ℚ) (model : String) (count : ℚ) (us : String → ℚ) (acc : List ℚ)
    (lastDiff : Option ℚ) (p : String) (rest : List String) (t d : ℚ)
    (m2 : ServerInferenceMetric)
    (hu : (stats model p).update count (us p) = (some (t, d), m2))
    (hc : ¬(model ∈ monitor ∧ p = "queue" ∧ t > limit)) :
    srvProcessLoop stats monitor limit model count us acc lastDiff (p :: rest) =
      srvProcessLoop
        (fun m' p' => if m' = model ∧ p' = p then m2 else stats m' p')
        monitor limit model count us (acc ++ [t]) (some d) rest := by
  simp only [srvProcessLoop, hu]
  simp [hc]

/-- One step of the per-model loop when the model's process loop skips. -/
theorem srvModelLoop_step_skip
    (stats stats2 : String → String → ServerInferenceMetric)
    (monitor : List String) (limit : ℚ) (inp : PollInput) (acc : List Row)
    (model : String) (rest : List String) (errs : List ErrItem)
    (sn : ModelSnapshot) (hsn : inp.snap model = some sn)
    (hp : srvProcessLoop stats monitor limit model sn.count sn.us [] none
      processes = (stats2, errs, .skip)) :
    srvModelLoop stats monitor limit inp acc (model :: rest) =
      (stats2, errs, .ok none) := by
  simp only [srvModelLoop, hsn, hp]

/-- One step of the per-model loop when the model's process loop raises
the circuit breaker. -/
theorem srvModelLoop_step_breach
    (stats stats2 : String → String → ServerInferenceMetric)
    (monitor : List String) (limit : ℚ) (inp : PollInput) (acc : List Row)
    (model : String) (rest : List String) (errs : List ErrItem) (t : ℚ)
    (sn : ModelSnapshot) (hsn : inp.snap model = some sn)
    (hp : srvProcessLoop stats monitor limit model sn.count sn.us [] none
      processes = (stats2, errs, .unstable t)) :
    srvModelLoop stats monitor limit inp acc (model :: rest) =
      (stats2, errs, .error .unstable) := by
  simp only [srvModelLoop, hsn, hp]

/-- One step of the per-model loop when the model's process loop completes
its row. -/
theorem srvModelLoop_step_done
    (stats stats2 : String → String → ServerInferenceMetric)
    (monitor : List String) (limit : ℚ) (inp : PollInput) (acc : List Row)
    (model : String) (rest : List String) (errs : List ErrItem)
    (vals : List ℚ) (d : ℚ) (sn : ModelSnapshot)
    (hsn : inp.snap model = some sn)
    (hp : srvProcessLoop stats monitor limit model sn.count sn.us [] none
      processes = (stats2, errs, .done vals d)) :
    srvModelLoop stats monitor limit inp acc (model :: rest) =
      ((srvModelLoop stats2 monitor limit inp
          (acc ++ [vals.map Val.q ++ [Val.q inp.gpuUtil, Val.s model,
            Val.q d, Val.q inp.interval]]) rest).1,
        errs ++ (srvModelLoop stats2 monitor limit inp
          (acc ++ [vals.map Val.q ++ [Val.q inp.gpuUtil, Val.s model,
            Val.q d, Val.q inp.interval]]) rest).2.1,
        (srvModelLoop stats2 monitor limit inp
          (acc ++ [vals.map Val.q ++ [Val.q inp.gpuUtil, Val.s model,
            Val.q d, Val.q inp.interval]]) rest).2.2) := by
  simp only [srvModelLoop, hsn, hp]

/-- The per-process loop either raises no breach and puts nothing on the
error queue, or raises the breach having put exactly the breaching
average — a value above the limit — on the error queue. -/
theorem srvProcessLoop_errs (procs : List String)
    (stats stats2 : String → String → ServerInferenceMetric)
    (monitor : List String) (limit : ℚ) (model : String) (count : ℚ)
    (us : String → ℚ) (acc : List ℚ) (lastDiff : Option ℚ)
    (errs : List ErrItem) (out : ProcOutcome)
    (h : srvProcessLoop stats monitor limit model count us acc lastDiff
      procs = (stats2, errs, out)) :
    (errs = [] ∧ ∀ t, out ≠ .unstable t) ∨
      ∃ t, errs = [.val t] ∧ out = .unstable t ∧ t > limit ∧
        model ∈ monitor := by
  induction procs generalizing stats acc lastDiff stats2 errs out with
  | nil =>
    cases lastDiff <;> simp only [srvProcessLoop] at h <;>
      rcases h with ⟨rfl, rfl, rfl⟩ <;> simp
  | cons p rest ih =>
    rcases hu : (stats model p).update count (us p) with ⟨o, m2⟩
    rcases o with _ | ⟨t, d⟩
    · rw [srvProcessLoop_step_none _ _ _ _ _ _ _ _ _ _ _ hu] at h
      rcases h with ⟨rfl, rfl, rfl⟩
      simp
    · by_cases hc : model ∈ monitor ∧ p = "queue" ∧ t > limit
      · rw [srvProcessLoop_step_breach _ _ _ _ _ _ _ _ _ _ t d m2 hu hc] at h
        rcases h with ⟨rfl, rfl, rfl⟩
        exact Or.inr ⟨t, rfl, rfl, hc.2.2, hc.1⟩
      · rw [srvProcessLoop_step_go _ _ _ _ _ _ _ _ _ _ t d m2 hu hc] at h
        exact ih _ _ _ _ _ _ h

/-- The per-process loop for one model never touches the stats of another
model. -/
theorem srvProcessLoop_stats_other (procs : List String)
    (stats : String → String → ServerInferenceMetric) (monitor : List String)
    (limit : ℚ) (model : String) (count : ℚ) (us : String → ℚ) (acc : List ℚ)
    (lastDiff : Option ℚ) (m' p' : String) (hm : m' ≠ model) :
    (srvProcessLoop stats monitor limit model count us acc lastDiff
      procs).1 m' p' = stats m' p' := by
  induction procs generalizing stats acc lastDiff with
  | nil => cases lastDiff <;> simp [srvProcessLoop]
  | cons p rest ih =>
    rcases hu : (stats model p).update count (us p) with ⟨o, m2⟩
    rcases o with _ | ⟨t, d⟩
    · rw [srvProcessLoop_step_none _ _ _ _ _ _ _ _ _ _ _ hu]
      simp [hm]
    · by_cases hc : model ∈ monitor ∧ p = "queue" ∧ t > limit
      · rw [srvProcessLoop_step_breach _ _ _ _ _ _ _ _ _ _ t d m2 hu hc]
        simp [hm]
      · rw [srvProcessLoop_step_go _ _ _ _ _ _ _ _ _ _ t d m2 hu hc]
        rw [ih]
        simp [hm]

/-- C1: for any stored state, an `update` whose count equals the stored
count is a skipped no-op returning nothing, and an `update` whose count
differs returns the average `(time_new - time_old) / (count_new -
count_old)`; feeding counts `[0,10,10,25]` with times `[0,100,100,250]`
from the initial state yields an update with average 10 at index 1, a
no-op at index 2, and an update with average 10 at index 3. -/
theorem serverMetric_diff_average (m : ServerInferenceMetric) (c t : ℚ) :
    (c = m.count → m.update c t = (none, m)) ∧
    (c ≠ m.count →
      m.update c t =
        (some ((t - m.ns) / (c - m.count), c - m.count), ⟨t, c⟩)) ∧
    feedSnapshots .init [(0, 0), (10, 100), (10, 100), (25, 250)] =
      [none, some (10, 10), none, some (10, 15)] := by
  refine ⟨fun h => ?_, fun h => ?_, ?_⟩
  · simp [ServerInferenceMetric.update, h]
  · simp [ServerInferenceMetric.update, sub_eq_zero, h]
  · norm_num [feedSnapshots, ServerInferenceMetric.update,
      ServerInferenceMetric.init]

/-- Witness for C1 at concrete inputs. -/
theorem serverMetric_diff_average_witness :
    ServerInferenceMetric.update ⟨0, 0⟩ 0 7 = (none, ⟨0, 0⟩) ∧
    ServerInferenceMetric.update ⟨0, 0⟩ 10 100 =
      (some (((100 : ℚ) - 0) / (10 - 0), 10 - 0), ⟨100, 10⟩) :=
  ⟨(serverMetric_diff_average ⟨0, 0⟩ 0 7).1 rfl,
   (serverMetric_diff_average ⟨0, 0⟩ 10 100).2.1 (by norm_num)⟩

/-- C10: `update` leaves both stored fields unchanged and returns nothing
exactly when the snapshot count equals the stored count; for any other
count it overwrites both fields and returns `(average, count delta)`,
with no monotonicity guard: a decreasing counter overwrites state and
produces a negative delta rather than a skip or an error. -/
theorem serverMetric_frame_effect (m : ServerInferenceMetric) (c t : ℚ) :
    ((m.update c t).1 = none ∧ (m.update c t).2 = m ↔ c = m.count) ∧
    (c ≠ m.count → (m.update c t).2 = ⟨t, c⟩) ∧
    (c < m.count →
      (m.update c t).1 = some ((t - m.ns) / (c - m.count), c - m.count) ∧
      c - m.count < 0) := by
  by_cases h : c = m.count
  · subst h
    simp [ServerInferenceMetric.update]
  · simp [ServerInferenceMetric.update, sub_eq_zero, h, sub_neg]

/-- Witness for C10: an externally reset (decreasing) counter. -/
theorem serverMetric_frame_effect_witness :
    (ServerInferenceMetric.update ⟨100, 10⟩ 4 120).2 = ⟨120, 4⟩ ∧
    (ServerInferenceMetric.update ⟨100, 10⟩ 4 120).1 =
      some (((120 : ℚ) - 100) / (4 - 10), 4 - 10) ∧
    (4 : ℚ) - 10 < 0 :=
  ⟨(serverMetric_frame_effect ⟨100, 10⟩ 4 120).2.1 (by norm_num),
   (serverMetric_frame_effect ⟨100, 10⟩ 4 120).2.2 (by norm_num)⟩

/-- C6: feeding `ClientStatsMonitor` the origin tuple `("start_time", 0)`
followed by single-stage tuples `(0,1)`, `(0,2)`, `(0,3)` yields running
latency means exactly `1`, `3/2` and `2` after the first, second and
third data tuple (exact rational arithmetic), and exactly those values
are published on the latency accessor queue. -/
theorem clientLatencyConvergence :
    (clientFeed .init [[("c", some (.startTime 0))],
        [("c", some (.tuple [0, 1]))]]).map (fun st => st.latency) = .ok 1 ∧
    (clientFeed .init [[("c", some (.startTime 0))],
        [("c", some (.tuple [0, 1]))],
        [("c", some (.tuple [0, 2]))]]).map (fun st => st.latency) =
      .ok (3 / 2) ∧
    (clientFeed .init [[("c", some (.startTime 0))],
        [("c", some (.tuple [0, 1]))],
        [("c", some (.tuple [0, 2]))],
        [("c", some (.tuple [0, 3]))]]).map (fun st => st.latency) = .ok 2 ∧
    (clientFeed .init [[("c", some (.startTime 0))],
        [("c", some (.tuple [0, 1]))],
        [("c", some (.tuple [0, 2]))],
        [("c", some (.tuple [0, 3]))]]).map (fun st => st.latencyQ) =
      .ok [1, 3 / 2, 2] := by
  norm_num [clientFeed, clientGetValues, clientGetValuesAux,
    ClientStatsMonitor.init, Except.map, List.getLast?]

/-- When `_get_values` raises `UnstableQueueException`, it has put exactly
the breaching average — which exceeds the limit — on the error queue. -/
theorem srvModelLoop_unstable_errs (models : List String)
    (stats : String → String → ServerInferenceMetric) (monitor : List String)
    (limit : ℚ) (inp : PollInput) (acc : List Row)
    (h : (srvModelLoop stats monitor limit inp acc models).2.2 =
      .error .unstable) :
    ∃ t, (srvModelLoop stats monitor limit inp acc models).2.1 = [.val t] ∧
      t > limit := by
  induction models generalizing stats acc with
  | nil => simp [srvModelLoop] at h
  | cons a rest ih =>
    rcases hsn : inp.snap a with _ | sna
    · simp [srvModelLoop, hsn] at h
    · rcases hout : srvProcessLoop stats monitor limit a sna.count sna.us []
        none processes with ⟨stats2, errs, out⟩
      rcases out with _ | t | ⟨vals, d⟩
      · rw [srvModelLoop_step_skip _ _ _ _ _ _ _ _ _ sna hsn hout] at h
        simp at h
      · rw [srvModelLoop_step_breach _ _ _ _ _ _ _ _ _ t sna hsn hout] at h ⊢
        rcases srvProcessLoop_errs _ _ _ _ _ _ _ _ _ _ _ _ hout with
          ⟨_, hno⟩ | ⟨t', he, hot, hlim, _⟩
        · exact absurd rfl (hno t)
        · exact ⟨t', he, hlim⟩
      · rw [srvModelLoop_step_done _ _ _ _ _ _ _ _ _ vals d sna hsn hout]
          at h ⊢
        simp only at h
        obtain ⟨t, ht1, ht2⟩ := ih _ _ h
        have herrs : errs = [] := by
          rcases srvProcessLoop_errs _ _ _ _ _ _ _ _ _ _ _ _ hout with
            ⟨he, _⟩ | ⟨t', _, hot, _, _⟩
          · exact he
          · exact absurd hot (by simp)
        simp only [herrs, List.nil_append]
        exact ⟨t, ht1, ht2⟩

/-- Concrete evaluation of `_get_values` for the breach scenario: the
queue average 10 exceeds the limit 5, so the breaching average is put on
the error queue and `UnstableQueueException` is raised. -/
theorem breachEval : srvModelLoop freshStats ["m"] 5 breachPoll [] ["m"] =
    ((fun m' p' => if m' = "m" ∧ p' = "queue" then ⟨100, 10⟩
        else if m' = "m" ∧ p' = "success" then ⟨50, 10⟩ else freshStats m' p'),
      [.val 10], .error .unstable) := by
  have hp : srvProcessLoop freshStats ["m"] 5 "m" 10 breachUs [] none
      processes =
      ((fun m' p' => if m' = "m" ∧ p' = "queue" then ⟨100, 10⟩
          else if m' = "m" ∧ p' = "success" then ⟨50, 10⟩
          else freshStats m' p'),
        [.val 10], .unstable 10) := by
    rw [show processes = "success" :: "queue" ::
      ["compute_input", "compute_infer", "compute_output"] from rfl]
    rw [srvProcessLoop_step_go freshStats ["m"] 5 "m" 10 breachUs [] none
      "success" _ 5 10 ⟨50, 10⟩
      (by simp [freshStats, breachUs, ServerInferenceMetric.update,
        ServerInferenceMetric.init]; norm_num)
      (by simp)]
    simp only [List.nil_append]
    rw [srvProcessLoop_step_breach _ ["m"] 5 "m" 10 breachUs [5] (some 10)
      "queue" _ 10 10 ⟨100, 10⟩
      (by simp [freshStats, breachUs, ServerInferenceMetric.update,
        ServerInferenceMetric.init]; norm_num)
      (by norm_num)]
  exact srvModelLoop_step_breach _ _ _ _ _ _ _ _ _ 10 ⟨10, breachUs⟩
    (by simp [breachPoll]) hp

/-- C3 is false as stated: in the breach scenario the writer stops, but
the non-blocking error accessor does NOT return nothing — `_get_values`
put the breaching queue average (the value 10) on the error channel
before raising, so the channel is non-empty after the breach. -/
theorem srv_breach_error_nonempty_counterexample :
    (srvRun breachState [breachPoll]).stopped = true ∧
    (srvRun breachState [breachPoll]).error = some (.val 10) ∧
    ¬(srvRun breachState [breachPoll]).error = none := by
  have hstep : srvRun breachState [breachPoll] =
      { breachState with
          stats := (srvModelLoop freshStats ["m"] 5 breachPoll [] ["m"]).1,
          errorQ := [.val 10], stopped := true } := by
    show srvRunStep breachState breachPoll = _
    rw [srvRunStep]
    simp only [breachState, srvGetValues, breachEval]
    simp
  rw [hstep]
  simp [SrvState.error]

/-- C3 amended: when the circuit-breaker fires, the writer task stops and
`run` itself places nothing on the error channel, but `_get_values` has
already placed the breaching average — a plain value above the limit, not
an exception — on it before raising; so after a breach the non-blocking
error accessor returns that value rather than nothing. -/
theorem srv_breach_stops_with_value (st : SrvState) (inp : PollInput)
    (h1 : st.stopped = false)
    (h2 : (srvGetValues st inp).2 = .error .unstable) :
    ∃ t, t > st.limit ∧
      (srvRunStep st inp).stopped = true ∧
      (srvRunStep st inp).errorQ = st.errorQ ++ [.val t] ∧
      (st.errorQ = [] → (srvRunStep st inp).error = some (.val t)) := by
  have h2' : (srvModelLoop st.stats st.monitor st.limit inp [] st.models).2.2 =
      .error .unstable := by
    simpa [srvGetValues] using h2
  obtain ⟨t, ht, hlim⟩ := srvModelLoop_unstable_errs _ _ _ _ _ _ h2'
  refine ⟨t, hlim, ?_, ?_, ?_⟩ <;>
    simp [srvRunStep, h1, srvGetValues, h2', ht, SrvState.error]
  intro h0
  simp [h0]

/-- Witness for the amended C3 theorem at the breach scenario. -/
theorem srv_breach_stops_with_value_witness :
    ∃ t, t > breachState.limit ∧
      (srvRunStep breachState breachPoll).stopped = true ∧
      (srvRunStep breachState breachPoll).errorQ =
        breachState.errorQ ++ [.val t] ∧
      (breachState.errorQ = [] →
        (srvRunStep breachState breachPoll).error = some (.val t)) :=
  srv_breach_stops_with_value breachState breachPoll rfl
    (by show (srvGetValues breachState breachPoll).2 = .error .unstable
        simp only [srvGetValues, breachState, breachEval])

/-- With no monitored stage, if any polled model's success count is
unchanged, `_get_values` returns nothing: the `return` taken at that
model's first `update` aborts the WHOLE poll. -/
theorem srvModelLoop_skips_whole_poll (models : List String) (limit : ℚ)
    (inp : PollInput) (m : String) :
    ∀ (stats : String → String → ServerInferenceMetric) (acc : List Row),
      m ∈ models →
      (∀ m' ∈ models, (inp.snap m').isSome = true) →
      (∀ sn, inp.snap m = some sn →
        sn.count = (stats m "success").count) →
      (srvModelLoop stats [] limit inp acc models).2.2 = .ok none := by
  induction models with
  | nil => intro _ _ hm _ _; cases hm
  | cons a rest ih =>
    intro stats acc hm hsnap hcount
    obtain ⟨sna, hsna⟩ := Option.isSome_iff_exists.1 (hsnap a (by simp))
    by_cases hma : m = a
    · subst hma
      have hc := hcount sna hsna
      have hu : (stats m "success").update sna.count (sna.us "success") =
          (none, stats m "success") := by
        simp [ServerInferenceMetric.update, hc]
      have hp : srvProcessLoop stats [] limit m sna.count sna.us [] none
          processes =
          ((fun m' p' => if m' = m ∧ p' = "success" then stats m "success"
              else stats m' p'), [], .skip) := by
        rw [show processes = "success" :: ["queue", "compute_input",
          "compute_infer", "compute_output"] from rfl]
        exact srvProcessLoop_step_none _ _ _ _ _ _ _ _ _ _ _ hu
      rw [srvModelLoop_step_skip _ _ _ _ _ _ _ _ _ sna hsna hp]
    · have hm' : m ∈ rest := by
        rcases List.mem_cons.1 hm with h | h
        · exact absurd h hma
        · exact h
      rcases hout : srvProcessLoop stats [] limit a sna.count sna.us [] none
        processes with ⟨stats2, errs, out⟩
      rcases out with _ | t | ⟨vals, d⟩
      · rw [srvModelLoop_step_skip _ _ _ _ _ _ _ _ _ sna hsna hout]
      · rcases srvProcessLoop_errs _ _ _ _ _ _ _ _ _ _ _ _ hout with
          ⟨_, hno⟩ | ⟨t', _, _, _, hmem⟩
        · exact absurd rfl (hno t)
        · cases hmem
      · rw [srvModelLoop_step_done _ _ _ _ _ _ _ _ _ vals d sna hsna hout]
        simp only
        refine ih _ _ hm' (fun m' hmm => hsnap m' (by simp [hmm])) ?_
        intro sn hsn
        have hpres : stats2 m "success" = stats m "success" := by
          have h := srvProcessLoop_stats_other processes stats [] limit a
            sna.count sna.us [] none m "success" hma
          rw [hout] at h
          exact h
        rw [hpres]
        exact hcount sn hsn

/-- C5 amended, on `srvGetValues`: on an unmonitored poll in which every
model is present on the metrics page and model `m`'s success count is
unchanged, `_get_values` returns nothing — no model's row is emitted in
that poll, not only `m`'s. -/
theorem srv_unchanged_aborts_poll (st : SrvState) (inp : PollInput)
    (m : String) (hmon : st.monitor = []) (hm : m ∈ st.models)
    (hsnap : ∀ m' ∈ st.models, (inp.snap m').isSome = true)
    (hcount : ∀ sn, inp.snap m = some sn →
      sn.count = (st.stats m "success").count) :
    (srvGetValues st inp).2 = .ok none := by
  show (srvModelLoop st.stats st.monitor st.limit inp [] st.models).2.2 =
    .ok none
  rw [hmon]
  exact srvModelLoop_skips_whole_poll st.models st.limit inp m st.stats []
    hm hsnap hcount

/-- Concrete evaluation for the two-model poll: although model `"a"`
gained successes, the unchanged count of `"b"` aborts the poll. -/
theorem abEval :
    (srvModelLoop freshStats [] 0 pollAB [] ["a", "b"]).2.2 = .ok none := by
  have hp : srvProcessLoop freshStats [] 0 "a" 5
      (fun _ => (10 : ℚ)) [] none processes =
      (abStats, [], .done [2, 2, 2, 2, 2] 5) := by
    rw [show processes = "success" :: "queue" :: "compute_input" ::
      "compute_infer" :: ["compute_output"] from rfl]
    rw [srvProcessLoop_step_go _ _ _ _ _ _ _ _ _ _ 2 5 ⟨10, 5⟩
      (by simp [freshStats, ServerInferenceMetric.update,
        ServerInferenceMetric.init]; norm_num) (by simp)]
    rw [srvProcessLoop_step_go _ _ _ _ _ _ _ _ _ _ 2 5 ⟨10, 5⟩
      (by simp [freshStats, ServerInferenceMetric.update,
        ServerInferenceMetric.init]; norm_num) (by simp)]
    rw [srvProcessLoop_step_go _ _ _ _ _ _ _ _ _ _ 2 5 ⟨10, 5⟩
      (by simp [freshStats, ServerInferenceMetric.update,
        ServerInferenceMetric.init]; norm_num) (by simp)]
    rw [srvProcessLoop_step_go _ _ _ _ _ _ _ _ _ _ 2 5 ⟨10, 5⟩
      (by simp [freshStats, ServerInferenceMetric.update,
        ServerInferenceMetric.init]; norm_num) (by simp)]
    rw [srvProcessLoop_step_go _ _ _ _ _ _ _ _ _ _ 2 5 ⟨10, 5⟩
      (by simp [freshStats, ServerInferenceMetric.update,
        ServerInferenceMetric.init]; norm_num) (by simp)]
    simp only [srvProcessLoop]
    rfl
  have hb : abStats "b" "success" = .init := by
    simp [abStats, freshStats]
  have hub : (abStats "b" "success").update 0 ((fun _ => (0 : ℚ)) "success") =
      (none, abStats "b" "success") := by
    rw [hb]
    simp [ServerInferenceMetric.update, ServerInferenceMetric.init]
  rw [srvModelLoop_step_done freshStats abStats [] 0 pollAB [] "a" ["b"] []
    [2, 2, 2, 2, 2] 5 ⟨5, fun _ => (10 : ℚ)⟩ (by simp [pollAB]) hp]
  simp only
  rw [srvModelLoop_step_skip abStats _ [] 0 pollAB _ "b" [] []
    ⟨0, fun _ => (0 : ℚ)⟩ (by simp [pollAB])
    (by rw [show processes = "success" :: ["queue", "compute_input",
          "compute_infer", "compute_output"] from rfl]
        exact srvProcessLoop_step_none _ _ _ _ _ _ _ _ _ _ _ hub)]

/-- C5 is false as stated: in the two-model poll, model `"a"`'s success
count changed (0 → 5) while `"b"`'s is unchanged (0 → 0), yet
`_get_values` emits NO rows at all — `"a"`'s computed row is dropped
along with `"b"`'s, and the run writes nothing. -/
theorem srv_changed_rows_dropped_counterexample :
    (pollAB.snap "a").map ModelSnapshot.count = some 5 ∧
    (pollAB.snap "b").map ModelSnapshot.count = some 0 ∧
    (stateAB.stats "a" "success").count = 0 ∧
    (stateAB.stats "b" "success").count = 0 ∧
    (srvGetValues stateAB pollAB).2 = .ok none ∧
    (srvRun stateAB [pollAB]).rows = [] := by
  have hgv : (srvGetValues stateAB pollAB).2 = .ok none := abEval
  refine ⟨by simp [pollAB], by simp [pollAB],
    by simp [stateAB, freshStats, ServerInferenceMetric.init],
    by simp [stateAB, freshStats, ServerInferenceMetric.init], hgv, ?_⟩
  show (srvRunStep stateAB pollAB).rows = []
  rw [srvRunStep]
  simp only [stateAB, Bool.false_eq_true, if_false]
  rcases hr : srvGetValues stateAB pollAB with ⟨st', res⟩
  have hres : res = .ok none := by rw [hr] at hgv; exact hgv
  subst hres
  have hrows : st'.rows = [] := by
    have : st'.rows = stateAB.rows := by
      rw [show st' = (srvGetValues stateAB pollAB).1 from by rw [hr]]
      simp [srvGetValues, stateAB]
    simpa [stateAB] using this
  simp only [stateAB] at hr
  rw [hr]
  exact hrows

/-- Witness for the amended C5 theorem at the two-model poll. -/
theorem srv_unchanged_aborts_poll_witness :
    (srvGetValues stateAB pollAB).2 = .ok none :=
  srv_unchanged_aborts_poll stateAB pollAB "b" rfl (by simp [stateAB])
    (by intro m' hm'
        simp only [stateAB] at hm'
        fin_cases hm' <;> simp [pollAB])
    (by intro sn hsn
        simp only [pollAB] at hsn
        simp at hsn
        rw [← hsn]
        simp [stateAB, freshStats, ServerInferenceMetric.init])

/-- Processing a poll, any `("start_time", t0)` tuple (after any number of
empty queues) overwrites the monitor's single shared origin, regardless of
which producer sent it, emits no row, and aborts the rest of the poll. -/
theorem clientAux_origin_global (st : ClientStatsMonitor)
    (lastMs : Option (List ℚ)) (acc : List ClientRow) (cid : String)
    (t0 : ℚ) (post : List (String × Option ClientMsg)) :
    ∀ pre, (∀ x ∈ pre, x.2 = none) →
      clientGetValuesAux st lastMs acc
          (pre ++ (cid, some (.startTime t0)) :: post) =
        .ok ({ st with startTime := some t0 }, none) := by
  intro pre
  induction pre with
  | nil => intro _; rfl
  | cons c pre' ih =>
    intro hpre
    rcases c with ⟨cid', o⟩
    have ho : o = none := hpre (cid', o) (by simp)
    subst ho
    exact ih fun x hx => hpre x (by simp [hx])

/-- Concrete three-poll evaluation: producer `"A"` declares origin 0,
then `"B"` declares origin 100, then `"A"`'s tuple `(0, 10)` is shifted
by the LATEST origin 100 (producing `[-100, -90]`), not by `"A"`'s own
origin 0. -/
theorem c8Eval :
    (clientFeedLast .init c8polls).map (fun r => r.2) =
      .ok (some [("A", [-100, -90])]) := by
  norm_num [clientFeedLast, clientGetValues, clientGetValuesAux,
    ClientStatsMonitor.init, c8polls, Except.map, List.getLast?]

/-- C8 is false as stated: with two producers, `"A"`'s data tuple is
shifted by `"B"`'s origin (the most recently received one), not by
`"A"`'s own origin — the row is `[-100, -90]`, not `[0, 10]`. -/
theorem client_per_producer_origin_counterexample :
    (clientFeedLast .init c8polls).map (fun r => r.2) =
      .ok (some [("A", [-100, -90])]) ∧
    ¬(clientFeedLast .init c8polls).map (fun r => r.2) =
      .ok (some [("A", [0, 10])]) := by
  refine ⟨c8Eval, ?_⟩
  rw [c8Eval]
  simp

/-- C8 amended: `ClientStatsMonitor` keeps one monitor-global origin: a
`("start_time", t0)` tuple from ANY producer overwrites the shared origin
(emitting no row and aborting the rest of that poll), and subsequent data
tuples from every producer are shifted by the most recently recorded
origin — in the three-poll scenario `"A"`'s tuple is shifted by `"B"`'s
origin. -/
theorem client_shared_origin (st : ClientStatsMonitor)
    (lastMs : Option (List ℚ)) (acc : List ClientRow) (cid : String)
    (t0 : ℚ) (post pre : List (String × Option ClientMsg))
    (hpre : ∀ x ∈ pre, x.2 = none) :
    clientGetValuesAux st lastMs acc
        (pre ++ (cid, some (.startTime t0)) :: post) =
      .ok ({ st with startTime := some t0 }, none) ∧
    (clientFeedLast .init c8polls).map (fun r => r.2) =
      .ok (some [("A", [-100, -90])]) :=
  ⟨clientAux_origin_global st lastMs acc cid t0 post pre hpre, c8Eval⟩

/-- Witness for the amended C8 theorem: origin tuple from `"B"` after an
empty read of `"X"`, with a pending item from `"A"` left unread. -/
theorem client_shared_origin_witness :
    clientGetValuesAux .init none []
        ([("X", none)] ++ ("B", some (.startTime 7)) ::
          [("A", some (.tuple [1, 2]))]) =
      .ok ({ ClientStatsMonitor.init with startTime := some 7 }, none) ∧
    (clientFeedLast .init c8polls).map (fun r => r.2) =
      .ok (some [("A", [-100, -90])]) :=
  client_shared_origin .init none [] "B" 7 [("A", some (.tuple [1, 2]))]
    [("X", none)] (by simp)

/-- C2 (code defect): on the very first call to `next()` after start, with
a raw block already delivered by the fetch task, `__next__` raises
`AttributeError` instead of returning the first window of `step` samples:
src/frame_reader.py:144 evaluates `self._frame.shape[1]` while
`self._frame` is still `None`.  In particular with `step = 3` and a first
block of length 7 the call does not return samples `[0:3]`. -/
theorem frameGen_first_next_attributeError (step : ℕ) (block : Frame)
    (rest : List QItem) (alive : Bool) :
    (GCPFrameDataGenerator.fresh step (.ok block :: rest) alive).next =
      .error (.py .attributeError) ∧
    (GCPFrameDataGenerator.fresh 3 [.ok [[0, 1, 2, 3, 4, 5, 6]]] true).next =
      .error (.py .attributeError) := by
  constructor <;> rfl

/-- C9 (code defect): `stop()` is not safe when start never completed.
`__iter__`, not `__init__`, creates `self._stop_event`, so calling
`stop()` on a generator whose `__iter__` was never invoked raises
`AttributeError` at `self._stop_event.set()` instead of returning. -/
theorem frameGen_stop_before_start_raises (g : FrameGenProc)
    (h : g.started = false) :
    g.stop = .error .attributeError := by
  simp [FrameGenProc.stop, h]

/-- Witness for C9's defect theorem: a generator fresh out of
`__init__`. -/
theorem frameGen_stop_before_start_raises_witness :
    FrameGenProc.stop ⟨false, false, false, false, false, false⟩ =
      .error .attributeError :=
  frameGen_stop_before_start_raises ⟨false, false, false, false, false, false⟩
    rfl

/-- C7: whenever the underlying synchronized receive inside
`Pipeline.get` fails — in particular with `TimeoutError` when some
registered channel produces no item before the deadline — `Pipeline`
cleans up every managed process before re-raising the fault: each alive
process is stopped and joined, then closed (falling back to terminate),
and the same fault is returned to the caller. -/
theorem pipeline_get_error_cleans_up {α : Type} (e : PyErr)
    (ps : List ManagedProcess) (channels : List (String × Option α))
    (hch : ∃ c ∈ channels, c.2 = none) :
    Pipeline.getWith (α := α) (.error e) ps =
      (.error e, Pipeline.cleanup ps) ∧
    Pipeline.get channels ps = (.error .timeoutError, Pipeline.cleanup ps) ∧
    ∀ p ∈ ps, p.preClosed = false →
      (p.alive = true → (cleanupOne p).stopCalled = true ∧
        (cleanupOne p).joinCalled = true) ∧
      ((cleanupOne p).closeDone = true ∨ (cleanupOne p).termCalled = true) := by
  obtain ⟨c, hc, hcn⟩ := hch
  have hall : channels.all (fun x => x.2.isSome) = false := by
    rw [List.all_eq_false]
    exact ⟨c, hc, by simp [hcn]⟩
  refine ⟨rfl, ?_, ?_⟩
  · simp [Pipeline.get, Pipeline.getWith, sync_recv, hall]
  · intro p _ hpre
    constructor
    · intro ha
      cases hx : p.exitsOnStop <;> simp [cleanupOne, hpre, ha, hx]
    · left
      by_cases ha : p.alive <;>
        cases hx : p.exitsOnStop <;> simp [cleanupOne, hpre, ha, hx]

/-- Witness for C7: two channels, one of which times out, over one alive
managed process. -/
theorem pipeline_get_error_cleans_up_witness :
    Pipeline.get [("c1", (some 0 : Option ℕ)), ("c2", none)]
        [⟨false, true, true, false, false, false, false⟩] =
      (.error .timeoutError,
        Pipeline.cleanup [⟨false, true, true, false, false, false, false⟩]) :=
  (pipeline_get_error_cleans_up .valueError
    [⟨false, true, true, false, false, false, false⟩]
    [("c1", (some 0 : Option ℕ)), ("c2", none)]
    ⟨("c2", none), by simp, rfl⟩).2.1

/-- C4 is false as stated: with two managed processes `"a"`, `"b"`,
`reset()` resumes `"a"` (at trace position 6) before `"b"` acknowledges
reset (at trace position 8): the length-7 prefix of the reset trace
contains `resume "a"` but no `resetAck "b"`. -/
theorem reset_not_full_barrier_counterexample :
    ResetEv.resume "a" ∈ (resetTrace ["a", "b"]).take 7 ∧
    ResetEv.resetAck "b" ∉ (resetTrace ["a", "b"]).take 7 := by
  decide

/-- Every prefix of the reset/resume phase containing `resume p` also
contains `resetAck p`. -/
theorem resetPhase_ack_before_resume (ps : List String) (p : String)
    (n : ℕ) (h : ResetEv.resume p ∈ (resetPhase ps).take n) :
    ResetEv.resetAck p ∈ (resetPhase ps).take n := by
  induction ps generalizing n with
  | nil => simp [resetPhase] at h
  | cons a rest ih =>
    simp only [resetPhase] at h ⊢
    rw [List.take_append_eq_append_take] at h ⊢
    rcases List.mem_append.1 h with h1 | h2
    · match n with
      | 0 => simp at h1
      | 1 => simp [perProcessReset] at h1
      | 2 => simp [perProcessReset] at h1
      | 3 => simp [perProcessReset] at h1
      | (m + 4) =>
        have hfull : (perProcessReset a).take (m + 4) = perProcessReset a :=
          List.take_of_length_le (by simp [perProcessReset])
        rw [hfull] at h1
        have hpa : p = a := by simpa [perProcessReset] using h1
        subst hpa
        exact List.mem_append.2 (Or.inl (by rw [hfull]; simp [perProcessReset]))
    · exact List.mem_append.2 (Or.inr (ih _ h2))

/-- C4 amended: during `Pipeline.reset()` no process resumes before its
OWN reset acknowledgment — every prefix of the reset trace containing
`resume p` also contains `resetAck p` (the cross-process barrier of the
original claim does not hold; processes are reset and resumed one at a
time). -/
theorem reset_resume_after_own_ack (ps : List String) (p : String) (n : ℕ)
    (h : ResetEv.resume p ∈ (resetTrace ps).take n) :
    ResetEv.resetAck p ∈ (resetTrace ps).take n := by
  unfold resetTrace at h ⊢
  rw [List.take_append_eq_append_take] at h ⊢
  rcases List.mem_append.1 h with h1 | h2
  · exfalso
    have hsub := List.take_subset _ _ h1
    rcases List.mem_append.1 hsub with ha | hb
    · rcases List.mem_map.1 ha with ⟨x, _, hx⟩
      exact absurd hx (by simp)
    · simp at hb
  · exact List.mem_append.2 (Or.inr (resetPhase_ack_before_resume _ _ _ h2))

/-- Witness for the amended C4 theorem: a single process `"a"`, whose
resume appears in the length-6 prefix. -/
theorem reset_resume_after_own_ack_witness :
    ResetEv.resetAck "a" ∈ (resetTrace ["a"]).take 6 :=
  reset_resume_after_own_ack ["a"] "a" 6 (by decide)

end BenchmarkGKE
